import Mathlib

/-!
# WIFI-ESP8266: connection lifecycle and secure fetch

A shallow embedding of `src/main.cpp`: the three station-mode event handlers,
the one-shot initialisation, the scheduler iteration `loop()` and the request /
response exchange of `fetchURL`.

Conventions of the embedding

* The globals `_wifiState` and the function-static `lastloopminute` are fields of
  `State`.  The globals `now` and `timeinfo` are always written immediately before
  they are read, so they are not kept in the state.
* The calls the program makes on the transport, the clocks, the certificate store
  and the restart facility are appended to `State.log` (`Event`), together with
  the entry into `InitialiseTime`, `LoadCertificates` and `fetchURL`, so that
  invocations can be counted.  Calls that only configure a library (`configTime`,
  `setenv`, `tzset`, `SPIFFS.begin`) are not recorded.
* Everything the surroundings answer during one `loop()` iteration is a field of
  `World`: the k-th answer of a library call is the value of a function at `k`.
* `Serial` output is recorded for `fetchURL` only; the diagnostic lines of the
  handlers and of the initialisation routines do not influence control flow and
  are left out.  The payload of a link event is used for its diagnostic line only,
  so the handlers take no payload.
* The busy-poll of `InitialiseTime` and the two read loops of `fetchURL` are
  bounded by a fuel argument.  When the fuel runs out the log written so far is
  kept and the run is marked as not returned; a `loop()` iteration that did not
  return leaves the state `blocked`.
* `step` and `run` take a handler call or a whole `loop()` iteration as one
  step: no handler is called inside an iteration.  `Machine` and `advance` also
  place handler calls inside the `delay(100)` of `InitialiseTime`;
  `advance_agrees_with_loop` relates the two views.
* `uint32_t` arithmetic is arithmetic on `Nat` modulo `2 ^ 32`.
-/

namespace WifiEsp8266

/-! ## Constants

The request target as `main.cpp` defines it when the build does not supply
`URL_HOST`. -/

def URL_HOST : String := "www.info.com"

def URL_PORT : Nat := 443

def URL_PATH : String := "/api/status"

def URL_BASICAUTH : String := "userid:password"

/-- Number of values of a `uint32_t`. -/
def UINT32 : Nat := 4294967296

/-! ## Data model -/

inductive ConnectionState where
  | WIFI_Disconnected
  | WIFI_Connected
  | WIFI_GotIP
  | CLIENT_Ready
  deriving DecidableEq, Repr

open ConnectionState

/-- Observable actions of the program, in the order they are performed. -/
inductive Event where
  /-- entry into `InitialiseTime()` -/
  | InitialiseTime
  /-- `time(nullptr)` returned `now` -/
  | time (now : Int)
  /-- `delay(ms)` -/
  | delay (ms : Nat)
  /-- entry into `LoadCertificates()` -/
  | LoadCertificates
  /-- `certStore.initCertStore(...)` returned `numCerts` -/
  | initCertStore (numCerts : Int)
  /-- `client.setSession(&session)` -/
  | setSession
  /-- `client.setCertStore(&certStore)` -/
  | setCertStore
  /-- entry into `fetchURL(client, host, port, path)` -/
  | fetchURL (host : String) (port : Nat) (path : String)
  /-- text written to `Serial` -/
  | serial (text : String)
  /-- `client->connect(host, port)` -/
  | connect (host : String) (port : Nat)
  /-- `client->connected()` returned `result` -/
  | connected (result : Bool)
  /-- `client->write(data)` -/
  | write (data : String)
  /-- `millis()` returned `value` -/
  | millis (value : Nat)
  /-- `client->readStringUntil('\n')` returned `line` -/
  | readStringUntil (line : String)
  /-- `client->stop()` -/
  | stop
  /-- `ESP.restart()` -/
  | restart
  deriving DecidableEq, Repr

/-- Answers of the surroundings during one `loop()` iteration. -/
structure World where
  /-- k-th result of `time(nullptr)` inside `InitialiseTime` -/
  time : Nat → Int
  /-- result of `certStore.initCertStore` -/
  numCerts : Int
  /-- `timeinfo.tm_min` after `localtime_r(&now, &timeinfo)` in `loop()` -/
  tm_min : Int
  /-- k-th result of `client->connected()` -/
  connected : Nat → Bool
  /-- k-th result of `client->readStringUntil('\n')` -/
  readStringUntil : Nat → String
  /-- k-th reading of the millisecond counter, before truncation to 32 bits -/
  millis : Nat → Nat

/-- The program state: the two variables that survive a `loop()` iteration, the
log of actions, and whether control is stuck inside an iteration. -/
structure State where
  _wifiState : ConnectionState
  lastloopminute : Int
  log : List Event
  /-- the fuel ran out inside a `loop()` iteration: that iteration has not
  returned, and no further iteration starts -/
  blocked : Bool
  deriving DecidableEq, Repr

/-- The state after static initialisation: `_wifiState = WIFI_Disconnected`,
`lastloopminute = 99`. -/
def State.initial : State :=
  { _wifiState := WIFI_Disconnected, lastloopminute := 99, log := [], blocked := false }

/-- The log and completion status of a call. -/
structure Run where
  log : List Event
  returned : Bool
  deriving DecidableEq, Repr

/-! ## Secure client -/

/-- Result of one of the read loops of `fetchURL`: the log, the index of the next
line, the index of the next clock reading, and whether the loop ended. -/
structure ReadRun where
  log : List Event
  reads : Nat
  clocks : Nat
  finished : Bool
  deriving DecidableEq, Repr

/-- The k-th `millis()` reading as the `unsigned long` the program sees. -/
def World.millis32 (W : World) (k : Nat) : Nat := W.millis k % UINT32

/-- The header loop of `fetchURL`:
`do { line = readStringUntil('\n'); println(line); if (line == "\r") break; } while (millis() < to);`
`deadline` is the local `to`; `r` and `c` are the indices of the next line and of the next clock reading. -/
def readHeader (W : World) (deadline : Nat) : Nat → Nat → Nat → ReadRun
  | 0, r, c => { log := [], reads := r, clocks := c, finished := false }
  | fuel + 1, r, c =>
    let line := W.readStringUntil r
    let out := [Event.readStringUntil line, Event.serial (line ++ "\r\n")]
    if line = "\r" then
      { log := out, reads := r + 1, clocks := c, finished := true }
    else
      let t := W.millis32 c
      if t < deadline then
        let rest := readHeader W deadline fuel (r + 1) (c + 1)
        { rest with log := out ++ Event.millis t :: rest.log }
      else
        { log := out ++ [Event.millis t], reads := r + 1, clocks := c + 1, finished := true }

/-- The body loop of `fetchURL`:
`do { line = readStringUntil('\n'); println(line); } while (millis() < to);` -/
def readBody (W : World) (deadline : Nat) : Nat → Nat → Nat → ReadRun
  | 0, r, c => { log := [], reads := r, clocks := c, finished := false }
  | fuel + 1, r, c =>
    let line := W.readStringUntil r
    let out := [Event.readStringUntil line, Event.serial (line ++ "\r\n")]
    let t := W.millis32 c
    if t < deadline then
      let rest := readBody W deadline fuel (r + 1) (c + 1)
      { rest with log := out ++ Event.millis t :: rest.log }
    else
      { log := out ++ [Event.millis t], reads := r + 1, clocks := c + 1, finished := true }

/-- The twelve `client->write` calls of `fetchURL`, in order. -/
def writeRequest (host path : String) : List Event :=
  [ Event.write "GET ", Event.write path, Event.write " HTTP/1.0\r\n",
    Event.write "Host: ", Event.write host, Event.write "\r\n",
    Event.write "User-Agent: ESP8266\r\n",
    Event.write "Authorization: Basic ", Event.write URL_BASICAUTH, Event.write "\r\n",
    Event.write "Connection: close\r\n",
    Event.write "\r\n" ]

/-- The part of `fetchURL` after the request is written: the deadline, the second
`connected()` check, the two read loops, `stop()` and the closing line. -/
def retrieveResponse (fuel : Nat) (W : World) : Run :=
  let t0 := W.millis32 0
  let deadline := (t0 + 5000) % UINT32
  let pre := [Event.millis t0, Event.connected (W.connected 1)]
  let post := [Event.stop, Event.serial "\n-------\n\n"]
  if W.connected 1 then
    let h := readHeader W deadline fuel 0 1
    if h.finished then
      let b := readBody W deadline fuel h.reads h.clocks
      if b.finished then
        { log := pre ++ h.log ++ b.log ++ post, returned := true }
      else
        { log := pre ++ h.log ++ b.log, returned := false }
    else
      { log := pre ++ h.log, returned := false }
  else
    { log := pre ++ post, returned := true }

/-- `void fetchURL(BearSSL::WiFiClientSecure *client, const char *host, const uint16_t port, const char *path)`;
the transport `client` is the `connected` / `readStringUntil` part of `W`. -/
def fetchURL (fuel : Nat) (W : World) (host : String) (port : Nat) (path : String) : Run :=
  let pre := [Event.fetchURL host port path,
    Event.serial ("URL: " ++ host ++ ":" ++ toString port ++ path ++ " ... "),
    Event.connect host port,
    Event.connected (W.connected 0)]
  if ¬ W.connected 0 then
    { log := pre ++ [Event.serial "*** Can't connect. ***\n-------\n"], returned := true }
  else
    let r := retrieveResponse fuel W
    { log := pre ++ Event.serial "connected!\n-------\n" :: writeRequest host path ++ r.log,
      returned := r.returned }

/-! ## WiFi event handlers -/

/-- `void onSTAConnected(WiFiEventStationModeConnected e)` -/
def onSTAConnected (s : State) : State :=
  { s with _wifiState := WIFI_Connected }

/-- `void onSTADisconnected(WiFiEventStationModeDisconnected e)`.
`ESP.restart()` is recorded in the log; the reboot that follows it, which runs
the static initialisation again, is outside the model. -/
def onSTADisconnected (s : State) : State :=
  { s with _wifiState := WIFI_Disconnected, log := s.log ++ [Event.restart] }

/-- `void onSTAGotIP(WiFiEventStationModeGotIP e)` -/
def onSTAGotIP (s : State) : State :=
  { s with _wifiState := WIFI_GotIP }

/-! ## Time and certificates -/

/-- The busy-poll of `InitialiseTime`:
`while (now < 24 * 3600) { Serial.print("."); delay(100); now = time(nullptr); }`
`k` is the index of the next `time(nullptr)` result. -/
def waitForTime (W : World) (now : Int) : Nat → Nat → Run
  | 0, _ => { log := [], returned := decide (¬ now < 24 * 3600) }
  | fuel + 1, k =>
    if now < 24 * 3600 then
      let now' := W.time k
      let rest := waitForTime W now' fuel (k + 1)
      { rest with log := Event.delay 100 :: Event.time now' :: rest.log }
    else
      { log := [], returned := true }

/-- `void InitialiseTime()` -/
def InitialiseTime (fuel : Nat) (W : World) : Run :=
  let now := W.time 0
  let rest := waitForTime W now fuel 1
  { rest with log := Event.InitialiseTime :: Event.time now :: rest.log }

/-- `void LoadCertificates()` -/
def LoadCertificates (W : World) : List Event :=
  [Event.LoadCertificates, Event.initCertStore W.numCerts, Event.setSession, Event.setCertStore]

/-! ## loop -/

/-- The `// Once if got IP` block at the head of `loop()`. -/
def onceIfGotIP (fuel : Nat) (W : World) (s : State) : State :=
  if s._wifiState = WIFI_GotIP then
    let r := InitialiseTime fuel W
    if r.returned then
      { s with log := s.log ++ r.log ++ LoadCertificates W, _wifiState := CLIENT_Ready }
    else
      { s with log := s.log ++ r.log, blocked := true }
  else
    s

/-- The `// each minute` block of `loop()`. -/
def eachMinute (fuel : Nat) (W : World) (s : State) : State :=
  if s.lastloopminute ≠ W.tm_min then
    let s1 := { s with lastloopminute := W.tm_min }
    if s1._wifiState = CLIENT_Ready then
      let r := fetchURL fuel W URL_HOST URL_PORT URL_PATH
      { s1 with log := s1.log ++ r.log, blocked := !r.returned }
    else
      s1
  else
    s

/-- `void loop()`: one scheduler iteration. -/
def loop (fuel : Nat) (W : World) (s : State) : State :=
  if s.blocked then s
  else
    let s1 := onceIfGotIP fuel W s
    if s1.blocked then s1 else eachMinute fuel W s1

/-! ## The system as a step function -/

/-- The three notifications of the network driver. -/
inductive LinkEvent where
  | associated
  | disassociated
  | addressAcquired
  deriving DecidableEq, Repr

/-- Deliver a link event to the handler registered for it in `setup()`. -/
def deliver (s : State) : LinkEvent → State
  | LinkEvent.associated => onSTAConnected s
  | LinkEvent.disassociated => onSTADisconnected s
  | LinkEvent.addressAcquired => onSTAGotIP s

/-- One step of the system: a link event delivered to its handler, or one whole
`loop()` iteration with no handler call inside it (for those see `Machine`). -/
inductive Step where
  | event (e : LinkEvent)
  | loop (fuel : Nat) (W : World)

def step (s : State) : Step → State
  | Step.event e => deliver s e
  | Step.loop fuel W => loop fuel W s

/-- Run a sequence of steps. -/
def run (s : State) (steps : List Step) : State := steps.foldl step s

/-- Run a sequence of `loop()` iterations, one fuel bound and one world each. -/
def runLoops (s : State) (its : List (Nat × World)) : State :=
  its.foldl (fun acc it => loop it.1 it.2 acc) s

/-! ## Handlers inside `loop()`

The handlers are called by the network driver whenever the main thread hands
control to it: between two `loop()` iterations, and inside the `delay(100)` of
`InitialiseTime`, the one such point written in `main.cpp`.  `Machine` and
`advance` follow the main thread from one of these points to the next, so that
handler calls can be placed between them.  `fetchURL` neither reads nor writes
`_wifiState`, so a handler call during a fetch acts on `_wifiState` like one
before or after it. -/

/-- Where the main thread has handed control to the driver. -/
inductive Control where
  /-- between two `loop()` iterations -/
  | scheduler
  /-- inside `delay(100)` of `InitialiseTime`, in the `loop()` iteration that runs
  with `fuel` in world `W`; `k` is the index of the next `time(nullptr)` result -/
  | delay (fuel : Nat) (W : World) (k : Nat)

/-- The program state together with the point the main thread is at. -/
structure Machine where
  state : State
  control : Control

/-- `InitialiseTime` from the test `now < 24 * 3600` of its `while` loop, run up to
the next `delay(100)`; when the wait is over, `InitialiseTime` returns and
`loop()` runs to its end: `LoadCertificates()`, `_wifiState = CLIENT_Ready`, and
the `// each minute` block. -/
def afterTimeReading (fuel : Nat) (W : World) (now : Int) (k : Nat) (s : State) : Machine :=
  if now < 24 * 3600 then
    { state := { s with log := s.log ++ [Event.delay 100] },
      control := Control.delay fuel W k }
  else
    { state := eachMinute fuel W
        { s with log := s.log ++ LoadCertificates W, _wifiState := CLIENT_Ready },
      control := Control.scheduler }

/-- The moves of the machine. -/
inductive Advance where
  /-- the driver calls the handler of a link event -/
  | event (e : LinkEvent)
  /-- the scheduler calls `loop()` -/
  | enterLoop (fuel : Nat) (W : World)
  /-- `delay(100)` returns -/
  | resume

/-- One move.  A handler runs at either point.  `loop()` is entered from the
scheduler only, and runs to its end or to the first `delay(100)`; `delay(100)`
returns into `now = time(nullptr)` and the test of the `while` loop. -/
def advance (m : Machine) : Advance → Machine
  | Advance.event e => { m with state := deliver m.state e }
  | Advance.enterLoop fuel W =>
    match m.control with
    | Control.scheduler =>
      if m.state.blocked then m
      else if m.state._wifiState = WIFI_GotIP then
        afterTimeReading fuel W (W.time 0) 1
          { m.state with log := m.state.log ++ [Event.InitialiseTime, Event.time (W.time 0)] }
      else
        { m with state := eachMinute fuel W m.state }
    | Control.delay _ _ _ => m
  | Advance.resume =>
    match m.control with
    | Control.scheduler => m
    | Control.delay fuel W k =>
      afterTimeReading fuel W (W.time k) (k + 1)
        { m.state with log := m.state.log ++ [Event.time (W.time k)] }

/-- Make a sequence of moves. -/
def advanceAll (m : Machine) (moves : List Advance) : Machine := moves.foldl advance m

/-- The machine when the program starts. -/
def Machine.initial : Machine := { state := State.initial, control := Control.scheduler }

/-- A world in which the first `time(nullptr)` of `InitialiseTime` still reads 0
and the second one, after one `delay(100)`, is synchronised. -/
def World.lateSync : World :=
  { time := fun k => if k = 0 then 0 else 1700000000, numCerts := 130, tm_min := 0,
    connected := fun _ => true, readStringUntil := fun _ => "",
    millis := fun k => 6000 * k }

/-! ## Observations on logs and traces -/

/-- Number of `ESP.restart()` calls in a log. -/
def restarts (log : List Event) : Nat := log.count Event.restart

/-- Number of `InitialiseTime()` invocations in a log. -/
def timeInits (log : List Event) : Nat := log.count Event.InitialiseTime

/-- Number of `LoadCertificates()` invocations in a log. -/
def certLoads (log : List Event) : Nat := log.count Event.LoadCertificates

def Event.isFetch : Event → Bool
  | Event.fetchURL _ _ _ => true
  | _ => false

/-- Number of `fetchURL` invocations in a log. -/
def fetches (log : List Event) : Nat := log.countP Event.isFetch

/-- The payloads of the `client->write` calls of a log, in order. -/
def written : List Event → List String
  | [] => []
  | Event.write d :: rest => d :: written rest
  | _ :: rest => written rest

/-- The payloads of the `readStringUntil` calls of a log, in order. -/
def linesRead : List Event → List String
  | [] => []
  | Event.readStringUntil l :: rest => l :: linesRead rest
  | _ :: rest => linesRead rest

def Step.isAddressAcquired : Step → Bool
  | Step.event LinkEvent.addressAcquired => true
  | _ => false

/-- Number of address-acquired events in a sequence of steps. -/
def addressEvents (steps : List Step) : Nat := steps.countP Step.isAddressAcquired

/-- Number of iterations whose observed minute differs from the minute seen last
(`last` before the first iteration, the preceding observation afterwards). -/
def minuteChanges (last : Int) : List Int → Nat
  | [] => 0
  | m :: ms => (if last ≠ m then 1 else 0) + minuteChanges m ms

/-- The state the transition table of the specification assigns to a link event. -/
def stateImpliedBy : LinkEvent → ConnectionState
  | LinkEvent.associated => WIFI_Connected
  | LinkEvent.disassociated => WIFI_Disconnected
  | LinkEvent.addressAcquired => WIFI_GotIP

/-- The edges of the lifecycle as the specification lists them:
Disconnected → Associated, Associated → AddressAcquired, Disconnected →
AddressAcquired, any state → Disconnected, AddressAcquired → Ready. -/
def specEdge : ConnectionState → ConnectionState → Bool
  | WIFI_Disconnected, WIFI_Connected => true
  | WIFI_Connected, WIFI_GotIP => true
  | WIFI_Disconnected, WIFI_GotIP => true
  | _, WIFI_Disconnected => true
  | WIFI_GotIP, CLIENT_Ready => true
  | _, _ => false

/-- The actions of a read loop: reading a line, echoing it, reading the clock. -/
def Event.inReadLoop : Event → Bool
  | Event.readStringUntil _ => true
  | Event.serial _ => true
  | Event.millis _ => true
  | _ => false

/-- The actions of `fetchURL` once the request is written. -/
def Event.inResponse : Event → Bool
  | Event.millis _ => true
  | Event.connected _ => true
  | Event.readStringUntil _ => true
  | Event.serial _ => true
  | Event.stop => true
  | _ => false

/-- The actions `fetchURL` can perform. -/
def Event.inFetch : Event → Bool
  | Event.fetchURL _ _ _ => true
  | Event.serial _ => true
  | Event.connect _ _ => true
  | Event.connected _ => true
  | Event.write _ => true
  | Event.millis _ => true
  | Event.readStringUntil _ => true
  | Event.stop => true
  | _ => false

/-- The actions the one-shot initialisation can perform. -/
def Event.inInit : Event → Bool
  | Event.InitialiseTime => true
  | Event.time _ => true
  | Event.delay _ => true
  | Event.LoadCertificates => true
  | Event.initCertStore _ => true
  | Event.setSession => true
  | Event.setCertStore => true
  | _ => false

/-- One when the next `loop()` iteration will run the one-shot initialisation:
the state is `WIFI_GotIP` and control is not stuck. -/
def pendingInit (s : State) : Nat :=
  if s._wifiState = WIFI_GotIP ∧ s.blocked = false then 1 else 0

/-- The minute values observed by a sequence of `loop()` iterations. -/
def minutes (its : List (Nat × World)) : List Int := its.map (fun it => it.2.tm_min)

/-- A world with a synchronised clock at minute `m`, a peer that accepts the
connection and sends nothing, and a millisecond counter that advances by six
seconds between readings. -/
def World.quiet (m : Int) : World :=
  { time := fun _ => 1700000000, numCerts := 130, tm_min := m,
    connected := fun _ => true, readStringUntil := fun _ => "",
    millis := fun k => 6000 * k }

/-- Sixty-one iterations, one per minute, over a little more than an hour:
the minutes 0, 1, ..., 59 and 0 again. -/
def hourOfIterations : List (Nat × World) :=
  (List.range 60 ++ [0]).map (fun m => (5, World.quiet (Int.ofNat m)))

/-- The `CLIENT_Ready` state reached from the initial state by an
address-acquired event followed by one `loop()` iteration at minute `m`. -/
def readyAtMinute (m : Int) : State :=
  run State.initial [Step.event LinkEvent.addressAcquired, Step.loop 5 (World.quiet m)]

/-- A world whose peer never accepts the connection. -/
def World.refused : World :=
  { time := fun _ => 1700000000, numCerts := 130, tm_min := 0,
    connected := fun _ => false, readStringUntil := fun _ => "",
    millis := fun k => 6000 * k }

/-- A world 49.7 days after boot: the millisecond counter reads `2 ^ 32 - 1000` when
the deadline is computed and advances by one millisecond per reading; the peer
keeps sending header lines and never the blank line. -/
def World.nearWrap : World :=
  { time := fun _ => 1700000000, numCerts := 130, tm_min := 0,
    connected := fun _ => true, readStringUntil := fun _ => "Server: x\r",
    millis := fun k => 4294966296 + k }

/-- A world whose millisecond counter reads `2 ^ 32 - 5001` when the deadline is
computed and then advances by 1001 ms per line read, passing `2 ^ 32` on the
fifth reading; the peer keeps sending header lines and never the blank line. -/
def World.acrossWrap : World :=
  { time := fun _ => 1700000000, numCerts := 130, tm_min := 0,
    connected := fun _ => true, readStringUntil := fun _ => "Server: x\r",
    millis := fun k => 4294962295 + 1001 * k }

/-! ## What each routine can write to the log -/

theorem readHeader_inReadLoop (W : World) (d : Nat) :
    ∀ fuel r c, ∀ e ∈ (readHeader W d fuel r c).log, e.inReadLoop = true := by
  intro fuel
  induction fuel with
  | zero => intro r c e he; simp [readHeader] at he
  | succ n ih =>
    intro r c e he
    unfold readHeader at he
    simp only at he
    split at he
    · simp at he
      rcases he with rfl | rfl <;> rfl
    · split at he
      · simp at he
        rcases he with rfl | rfl | rfl | h
        · rfl
        · rfl
        · rfl
        · exact ih _ _ e h
      · simp at he
        rcases he with rfl | rfl | rfl <;> rfl

theorem readBody_inReadLoop (W : World) (d : Nat) :
    ∀ fuel r c, ∀ e ∈ (readBody W d fuel r c).log, e.inReadLoop = true := by
  intro fuel
  induction fuel with
  | zero => intro r c e he; simp [readBody] at he
  | succ n ih =>
    intro r c e he
    unfold readBody at he
    simp only at he
    split at he
    · simp at he
      rcases he with rfl | rfl | rfl | h
      · rfl
      · rfl
      · rfl
      · exact ih _ _ e h
    · simp at he
      rcases he with rfl | rfl | rfl <;> rfl

theorem inResponse_of_inReadLoop {e : Event} (h : e.inReadLoop = true) :
    e.inResponse = true := by
  cases e <;> simp_all [Event.inReadLoop, Event.inResponse]

theorem inFetch_of_inResponse {e : Event} (h : e.inResponse = true) : e.inFetch = true := by
  cases e <;> simp_all [Event.inResponse, Event.inFetch]

theorem retrieveResponse_inResponse (fuel : Nat) (W : World) :
    ∀ e ∈ (retrieveResponse fuel W).log, e.inResponse = true := by
  intro e he
  have hH := readHeader_inReadLoop W ((W.millis32 0 + 5000) % UINT32) fuel 0 1
  have hB := fun r c => readBody_inReadLoop W ((W.millis32 0 + 5000) % UINT32) fuel r c
  unfold retrieveResponse at he
  simp only at he
  split at he
  · split at he
    · split at he
      · simp at he
        rcases he with rfl | rfl | h | h | rfl | rfl
        · rfl
        · rfl
        · exact inResponse_of_inReadLoop (hH e h)
        · exact inResponse_of_inReadLoop (hB _ _ e h)
        · rfl
        · rfl
      · simp at he
        rcases he with rfl | rfl | h | h
        · rfl
        · rfl
        · exact inResponse_of_inReadLoop (hH e h)
        · exact inResponse_of_inReadLoop (hB _ _ e h)
    · simp at he
      rcases he with rfl | rfl | h
      · rfl
      · rfl
      · exact inResponse_of_inReadLoop (hH e h)
  · simp at he
    rcases he with rfl | rfl | rfl | rfl <;> rfl

theorem retrieveResponse_inFetch (fuel : Nat) (W : World) :
    ∀ e ∈ (retrieveResponse fuel W).log, e.inFetch = true :=
  fun e he => inFetch_of_inResponse (retrieveResponse_inResponse fuel W e he)

theorem fetchURL_inFetch (fuel : Nat) (W : World) (host : String) (port : Nat) (path : String) :
    ∀ e ∈ (fetchURL fuel W host port path).log, e.inFetch = true := by
  intro e he
  unfold fetchURL at he
  simp only at he
  split at he
  · simp at he
    rcases he with rfl | rfl | rfl | rfl | rfl <;> rfl
  · simp [writeRequest] at he
    rcases he with rfl | rfl | rfl | rfl | rfl | rfl | rfl | rfl | rfl | rfl | rfl | rfl | rfl
      | rfl | rfl | rfl | rfl | h
    all_goals first | rfl | exact retrieveResponse_inFetch fuel W e h

theorem waitForTime_inInit (W : World) :
    ∀ fuel now k, ∀ e ∈ (waitForTime W now fuel k).log, e.inInit = true := by
  intro fuel
  induction fuel with
  | zero => intro now k e he; simp [waitForTime] at he
  | succ n ih =>
    intro now k e he
    unfold waitForTime at he
    split at he
    · simp at he
      rcases he with rfl | rfl | h
      · rfl
      · rfl
      · exact ih _ _ e h
    · simp at he

theorem waitForTime_no_entry (W : World) :
    ∀ fuel now k, Event.InitialiseTime ∉ (waitForTime W now fuel k).log
      ∧ Event.LoadCertificates ∉ (waitForTime W now fuel k).log := by
  intro fuel
  induction fuel with
  | zero => intro now k; simp [waitForTime]
  | succ n ih =>
    intro now k
    unfold waitForTime
    split
    · simp [ih]
    · simp

theorem InitialiseTime_log (fuel : Nat) (W : World) :
    timeInits (InitialiseTime fuel W).log = 1
    ∧ certLoads (InitialiseTime fuel W).log = 0
    ∧ ∀ e ∈ (InitialiseTime fuel W).log, e.inInit = true := by
  have h := waitForTime_no_entry W fuel (W.time 0) 1
  have h2 := waitForTime_inInit W fuel (W.time 0) 1
  refine ⟨?_, ?_, ?_⟩
  · simp [timeInits, InitialiseTime, List.count_cons, List.count_eq_zero.2 h.1]
  · simp [certLoads, InitialiseTime, List.count_cons, List.count_eq_zero.2 h.2]
  · intro e he
    simp [InitialiseTime] at he
    rcases he with rfl | rfl | h3
    · rfl
    · rfl
    · exact h2 e h3

theorem count_eq_zero_of_inFetch {log : List Event} (h : ∀ e ∈ log, e.inFetch = true)
    (x : Event) (hx : x.inFetch = false) : log.count x = 0 :=
  List.count_eq_zero.2 (fun hm => by simp [h x hm] at hx)

theorem count_eq_zero_of_inInit {log : List Event} (h : ∀ e ∈ log, e.inInit = true)
    (x : Event) (hx : x.inInit = false) : log.count x = 0 :=
  List.count_eq_zero.2 (fun hm => by simp [h x hm] at hx)

theorem fetches_eq_zero_of_inInit {log : List Event} (h : ∀ e ∈ log, e.inInit = true) :
    fetches log = 0 := by
  unfold fetches
  rw [List.countP_eq_zero]
  intro e he
  have := h e he
  cases e <;> simp_all [Event.inInit, Event.isFetch]

theorem LoadCertificates_inInit (W : World) : ∀ e ∈ LoadCertificates W, e.inInit = true := by
  intro e he
  simp [LoadCertificates] at he
  rcases he with rfl | rfl | rfl | rfl <;> rfl

/-- What one `loop()` iteration appends to the log: nothing, or the one-shot
initialisation, or a fetch, or the initialisation followed by a fetch. -/
theorem loop_log (fuel : Nat) (W : World) (s : State) :
    ∃ ext, (loop fuel W s).log = s.log ++ ext ∧ ∀ e ∈ ext, e.inInit = true ∨ e.inFetch = true := by
  have hI := (InitialiseTime_log fuel W).2.2
  have hL := LoadCertificates_inInit W
  have hF := fetchURL_inFetch fuel W URL_HOST URL_PORT URL_PATH
  unfold loop onceIfGotIP eachMinute
  by_cases hb : s.blocked = true
  · exact ⟨[], by simp [hb]⟩
  · by_cases hg : s._wifiState = WIFI_GotIP
    · by_cases hr : (InitialiseTime fuel W).returned = true
      · by_cases hm : s.lastloopminute = W.tm_min
        · refine ⟨(InitialiseTime fuel W).log ++ LoadCertificates W, by simp [hb, hg, hr, hm], ?_⟩
          intro e he
          rcases List.mem_append.1 he with h | h
          · exact Or.inl (hI e h)
          · exact Or.inl (hL e h)
        · refine ⟨(InitialiseTime fuel W).log ++ LoadCertificates W
            ++ (fetchURL fuel W URL_HOST URL_PORT URL_PATH).log, by simp [hb, hg, hr, hm], ?_⟩
          intro e he
          rcases List.mem_append.1 he with h | h
          · rcases List.mem_append.1 h with h | h
            · exact Or.inl (hI e h)
            · exact Or.inl (hL e h)
          · exact Or.inr (hF e h)
      · exact ⟨(InitialiseTime fuel W).log, by simp [hb, hg, hr], fun e he => Or.inl (hI e he)⟩
    · by_cases hm : s.lastloopminute = W.tm_min
      · exact ⟨[], by simp [hb, hg, hm]⟩
      · by_cases hc : s._wifiState = CLIENT_Ready
        · exact ⟨(fetchURL fuel W URL_HOST URL_PORT URL_PATH).log, by simp [hb, hg, hm, hc],
            fun e he => Or.inr (hF e he)⟩
        · exact ⟨[], by simp [hb, hg, hm, hc]⟩

theorem timeInits_append (a b : List Event) : timeInits (a ++ b) = timeInits a + timeInits b := by
  simp [timeInits]

theorem certLoads_append (a b : List Event) : certLoads (a ++ b) = certLoads a + certLoads b := by
  simp [certLoads]

theorem fetches_append (a b : List Event) : fetches (a ++ b) = fetches a + fetches b := by
  simp [fetches]

theorem timeInits_fetchURL (fuel : Nat) (W : World) (host : String) (port : Nat) (path : String) :
    timeInits (fetchURL fuel W host port path).log = 0 :=
  count_eq_zero_of_inFetch (fetchURL_inFetch fuel W host port path) _ rfl

theorem certLoads_fetchURL (fuel : Nat) (W : World) (host : String) (port : Nat) (path : String) :
    certLoads (fetchURL fuel W host port path).log = 0 :=
  count_eq_zero_of_inFetch (fetchURL_inFetch fuel W host port path) _ rfl

theorem timeInits_LoadCertificates (W : World) : timeInits (LoadCertificates W) = 0 := by
  simp [timeInits, LoadCertificates]

theorem certLoads_LoadCertificates (W : World) : certLoads (LoadCertificates W) = 1 := by
  simp [certLoads, LoadCertificates]

theorem fetches_retrieveResponse (fuel : Nat) (W : World) :
    fetches (retrieveResponse fuel W).log = 0 := by
  unfold fetches
  rw [List.countP_eq_zero]
  intro e he
  have := retrieveResponse_inResponse fuel W e he
  cases e <;> simp_all [Event.inResponse, Event.isFetch]

/-- One invocation of `fetchURL` is one entry in the log. -/
theorem fetches_fetchURL (fuel : Nat) (W : World) (host : String) (port : Nat) (path : String) :
    fetches (fetchURL fuel W host port path).log = 1 := by
  unfold fetchURL
  simp only
  split
  · simp [fetches, Event.isFetch]
  · rw [show ∀ (a b c d e : Event) (l : List Event), [a, b, c, d] ++ e :: l = [a, b, c, d, e] ++ l
      from fun _ _ _ _ _ _ => rfl, fetches_append, fetches_append, fetches_retrieveResponse]
    simp [fetches, Event.isFetch, writeRequest]

/-- A blocked state takes no further `loop()` iteration. -/
theorem loop_of_blocked (fuel : Nat) (W : World) (s : State) (h : s.blocked = true) :
    loop fuel W s = s := by
  simp [loop, h]

theorem runLoops_of_blocked (its : List (Nat × World)) (s : State) (h : s.blocked = true) :
    runLoops s its = s := by
  induction its with
  | nil => rfl
  | cons it rest ih =>
    simp only [runLoops, List.foldl_cons] at ih ⊢
    rw [loop_of_blocked _ _ _ h]
    exact ih

theorem runLoops_cons (s : State) (it : Nat × World) (rest : List (Nat × World)) :
    runLoops s (it :: rest) = runLoops (loop it.1 it.2 s) rest := rfl

theorem runLoops_append (s : State) (a b : List (Nat × World)) :
    runLoops s (a ++ b) = runLoops (runLoops s a) b := by
  simp [runLoops, List.foldl_append]

/-- One `loop()` iteration in state `CLIENT_Ready`. -/
theorem loop_ready (fuel : Nat) (W : World) (s : State) (hs : s._wifiState = CLIENT_Ready) :
    (loop fuel W s)._wifiState = CLIENT_Ready
    ∧ fetches s.log ≤ fetches (loop fuel W s).log
    ∧ fetches (loop fuel W s).log
        ≤ fetches s.log + (if s.lastloopminute ≠ W.tm_min then 1 else 0)
    ∧ ((loop fuel W s).blocked = false →
        s.blocked = false ∧ (loop fuel W s).lastloopminute = W.tm_min
        ∧ fetches (loop fuel W s).log
            = fetches s.log + (if s.lastloopminute ≠ W.tm_min then 1 else 0)) := by
  unfold loop onceIfGotIP eachMinute
  by_cases hb : s.blocked = true
  · simp [hb, hs]
  · by_cases hm : s.lastloopminute = W.tm_min
    · simp [hb, hs, hm]
    · simp [hb, hs, hm, fetches_append, fetches_fetchURL]

/-- After an iteration that returned, the last-seen minute is the observed one. -/
theorem loop_lastloopminute (fuel : Nat) (W : World) (s : State)
    (h : (loop fuel W s).blocked = false) : (loop fuel W s).lastloopminute = W.tm_min := by
  revert h
  unfold loop onceIfGotIP eachMinute
  by_cases hb : s.blocked = true
  · simp [hb]
  · by_cases hg : s._wifiState = WIFI_GotIP
    · by_cases hr : (InitialiseTime fuel W).returned = true
      · by_cases hm : s.lastloopminute = W.tm_min <;> simp [hb, hg, hr, hm]
      · simp [hb, hg, hr]
    · by_cases hm : s.lastloopminute = W.tm_min
      · simp [hb, hg, hm]
      · by_cases hc : s._wifiState = CLIENT_Ready <;> simp [hb, hg, hm, hc]

/-! ## Link events (C1, C2, C3) -/

/-- C1. After any non-empty sequence of link events, delivered from any state,
`_wifiState` is the state implied by the last event alone: `WIFI_Connected` after
an associated event, `WIFI_Disconnected` after a disassociation, `WIFI_GotIP`
after an address-acquired event. -/
theorem C1_state_is_last_event (s : State) (evs : List LinkEvent) (e : LinkEvent) :
    ((evs ++ [e]).foldl deliver s)._wifiState = stateImpliedBy e := by
  rw [List.foldl_append]
  cases e <;> rfl


/-- C2 (as stated, refuted). The state reached from the initial state by an
address-acquired event and one `loop()` iteration is `CLIENT_Ready`; an associated
event delivered there moves it to `WIFI_Connected`, and Ready → Associated is not
an edge of the lifecycle as the specification lists it. -/
theorem C2_counterexample :
    (readyAtMinute 0)._wifiState
      = CLIENT_Ready
    ∧ (step (readyAtMinute 0)
        (Step.event LinkEvent.associated))._wifiState = WIFI_Connected
    ∧ specEdge CLIENT_Ready WIFI_Connected = false := by
  decide

theorem afterTimeReading_wait (fuel : Nat) (W : World) (now : Int) (k : Nat) (s : State)
    (h : now < 24 * 3600) :
    afterTimeReading fuel W now k s
      = { state := { s with log := s.log ++ [Event.delay 100] },
          control := Control.delay fuel W k } := by
  unfold afterTimeReading
  rw [if_pos h]

theorem afterTimeReading_done (fuel : Nat) (W : World) (now : Int) (k : Nat) (s : State)
    (h : ¬ now < 24 * 3600) :
    afterTimeReading fuel W now k s
      = { state := eachMinute fuel W
            { s with log := s.log ++ LoadCertificates W, _wifiState := CLIENT_Ready },
          control := Control.scheduler } := by
  unfold afterTimeReading
  rw [if_neg h]

theorem waitForTime_wait (W : World) (now : Int) (wait k : Nat) (h : now < 24 * 3600) :
    waitForTime W now (wait + 1) k
      = { log := Event.delay 100 :: Event.time (W.time k)
            :: (waitForTime W (W.time k) wait (k + 1)).log,
          returned := (waitForTime W (W.time k) wait (k + 1)).returned } := by
  rw [waitForTime, if_pos h]

theorem waitForTime_done (W : World) (now : Int) (wait k : Nat) (h : ¬ now < 24 * 3600) :
    (waitForTime W now wait k).log = [] := by
  cases wait with
  | zero => rfl
  | succ w => rw [waitForTime, if_neg h]

theorem waitForTime_zero (W : World) (now : Int) (k : Nat)
    (h : (waitForTime W now 0 k).returned = true) : ¬ now < 24 * 3600 := by
  unfold waitForTime at h
  exact of_decide_eq_true h

/-- Without handler calls in between, the moves of the machine through the wait
of `InitialiseTime` add up to what the busy-poll does in one piece. -/
theorem afterTimeReading_waitForTime (fuel : Nat) (W : World) :
    ∀ (wait : Nat) (now : Int) (k : Nat) (s : State),
      (waitForTime W now wait k).returned = true →
      ∃ n, advanceAll (afterTimeReading fuel W now k s) (List.replicate n Advance.resume)
        = { state := eachMinute fuel W
              { s with log := s.log ++ (waitForTime W now wait k).log ++ LoadCertificates W,
                       _wifiState := CLIENT_Ready },
            control := Control.scheduler } := by
  intro wait
  induction wait with
  | zero =>
    intro now k s h
    have hn := waitForTime_zero W now k h
    refine ⟨0, ?_⟩
    rw [afterTimeReading_done fuel W now k s hn, waitForTime_done W now 0 k hn]
    simp [advanceAll]
  | succ w ih =>
    intro now k s h
    by_cases hn : now < 24 * 3600
    · rw [waitForTime_wait W now w k hn] at h ⊢
      obtain ⟨n, hn2⟩ := ih (W.time k) (k + 1)
        { s with log := s.log ++ [Event.delay 100] ++ [Event.time (W.time k)] } h
      refine ⟨n + 1, ?_⟩
      rw [List.replicate_succ, afterTimeReading_wait fuel W now k s hn]
      simp only [advanceAll, List.foldl_cons] at hn2 ⊢
      have e1 : advance
            ({ state := { s with log := s.log ++ [Event.delay 100] },
               control := Control.delay fuel W k } : Machine) Advance.resume
          = afterTimeReading fuel W (W.time k) (k + 1)
              { s with log := s.log ++ [Event.delay 100] ++ [Event.time (W.time k)] } := rfl
      rw [e1, hn2]
      simp
    · refine ⟨0, ?_⟩
      rw [afterTimeReading_done fuel W now k s hn, waitForTime_done W now (w + 1) k hn]
      simp [advanceAll]

/-- The machine agrees with `loop`: when no handler is called inside it, a
`loop()` iteration that returns is `enterLoop` followed by the returns of its
`delay(100)` calls. -/
theorem advance_agrees_with_loop (fuel : Nat) (W : World) (s : State)
    (hb : s.blocked = false) :
    (s._wifiState ≠ WIFI_GotIP →
      advance { state := s, control := Control.scheduler } (Advance.enterLoop fuel W)
        = { state := loop fuel W s, control := Control.scheduler })
    ∧ (s._wifiState = WIFI_GotIP → (InitialiseTime fuel W).returned = true →
      ∃ n, advanceAll { state := s, control := Control.scheduler }
          (Advance.enterLoop fuel W :: List.replicate n Advance.resume)
        = { state := loop fuel W s, control := Control.scheduler }) := by
  refine ⟨?_, ?_⟩
  · intro hg
    simp [advance, loop, onceIfGotIP, hb, hg]
  · intro hg hr
    have hr' : (waitForTime W (W.time 0) fuel 1).returned = true := by
      simpa [InitialiseTime] using hr
    obtain ⟨n, hn⟩ := afterTimeReading_waitForTime fuel W fuel (W.time 0) 1
      { s with log := s.log ++ [Event.InitialiseTime, Event.time (W.time 0)] } hr'
    refine ⟨n, ?_⟩
    simp only [advanceAll, List.foldl_cons] at hn ⊢
    have e1 : advance { state := s, control := Control.scheduler } (Advance.enterLoop fuel W)
        = afterTimeReading fuel W (W.time 0) 1
            { s with log := s.log ++ [Event.InitialiseTime, Event.time (W.time 0)] } := by
      simp [advance, hb, hg]
    rw [e1, hn]
    simp [loop, onceIfGotIP, hb, hg, hr', InitialiseTime]

theorem eachMinute_wifiState (fuel : Nat) (W : World) (s : State) :
    (eachMinute fuel W s)._wifiState = s._wifiState := by
  unfold eachMinute
  by_cases hm : s.lastloopminute = W.tm_min
  · simp [hm]
  · by_cases hc : s._wifiState = CLIENT_Ready <;> simp [hm, hc]

/-- What `afterTimeReading` does to `_wifiState`: nothing, or the assignment of
`CLIENT_Ready`. -/
theorem afterTimeReading_wifiState (fuel : Nat) (W : World) (now : Int) (k : Nat) (s : State) :
    (afterTimeReading fuel W now k s).state._wifiState = s._wifiState
    ∨ (afterTimeReading fuel W now k s).state._wifiState = CLIENT_Ready := by
  by_cases hn : now < 24 * 3600
  · rw [afterTimeReading_wait fuel W now k s hn]
    exact Or.inl rfl
  · rw [afterTimeReading_done fuel W now k s hn]
    exact Or.inr (eachMinute_wifiState fuel W _)

/-- The wait of `InitialiseTime` is entered only by `afterTimeReading` with an
unsynchronised reading. -/
theorem afterTimeReading_control (fuel : Nat) (W : World) (now : Int) (k : Nat) (s : State)
    (fuel' : Nat) (W' : World) (k' : Nat)
    (h : (afterTimeReading fuel W now k s).control = Control.delay fuel' W' k') :
    now < 24 * 3600 := by
  by_cases hn : now < 24 * 3600
  · exact hn
  · rw [afterTimeReading_done fuel W now k s hn] at h
    cases h

/-- C2 (amended).  For every machine state and every move (a handler call, the
call of `loop()`, or the return of the `delay(100)` of `InitialiseTime`):
`_wifiState` is unchanged, or the move is an associated event and the new state
is `WIFI_Connected`, or an address-acquired event and the new state is
`WIFI_GotIP`, or a disassociation and the new state is `WIFI_Disconnected`, or
the new state is `CLIENT_Ready` and the move is the call of `loop()` in state
`WIFI_GotIP` or the return of a `delay(100)` of `InitialiseTime`.  A handler call
sets the state its event implies from every state, `CLIENT_Ready` included.  The
wait of `InitialiseTime` is entered only by a call of `loop()` that finds
`WIFI_GotIP`. -/
theorem C2_transitions (m : Machine) (a : Advance) :
    ((advance m a).state._wifiState = m.state._wifiState
      ∨ (a = Advance.event LinkEvent.associated
          ∧ (advance m a).state._wifiState = WIFI_Connected)
      ∨ (a = Advance.event LinkEvent.addressAcquired
          ∧ (advance m a).state._wifiState = WIFI_GotIP)
      ∨ (a = Advance.event LinkEvent.disassociated
          ∧ (advance m a).state._wifiState = WIFI_Disconnected)
      ∨ ((∃ fuel W, a = Advance.enterLoop fuel W) ∧ m.control = Control.scheduler
          ∧ m.state._wifiState = WIFI_GotIP
          ∧ (advance m a).state._wifiState = CLIENT_Ready)
      ∨ (a = Advance.resume ∧ (∃ fuel W k, m.control = Control.delay fuel W k)
          ∧ (advance m a).state._wifiState = CLIENT_Ready))
    ∧ (∀ e : LinkEvent,
        (advance m (Advance.event e)).state._wifiState = stateImpliedBy e
        ∧ (advance m (Advance.event e)).control = m.control)
    ∧ (m.control = Control.scheduler →
        ∀ fuel W k, (advance m a).control = Control.delay fuel W k →
          a = Advance.enterLoop fuel W ∧ m.state._wifiState = WIFI_GotIP) := by
  refine ⟨?_, ?_, ?_⟩
  · cases a with
    | event e =>
      cases e <;> simp [advance, deliver, onSTAConnected, onSTADisconnected, onSTAGotIP]
    | enterLoop fuel W =>
      cases hc : m.control with
      | delay f W' k => simp [advance, hc]
      | scheduler =>
        by_cases hb : m.state.blocked = true
        · simp [advance, hc, hb]
        · by_cases hg : m.state._wifiState = WIFI_GotIP
          · have e : advance m (Advance.enterLoop fuel W)
                = afterTimeReading fuel W (W.time 0) 1
                    { m.state with
                      log := m.state.log ++ [Event.InitialiseTime, Event.time (W.time 0)] } := by
              simp only [advance, hc]
              rw [if_neg hb, if_pos hg]
            rw [e]
            rcases afterTimeReading_wifiState fuel W (W.time 0) 1
              { m.state with log := m.state.log ++ [Event.InitialiseTime, Event.time (W.time 0)] }
              with h | h
            · exact Or.inl h
            · right; right; right; right; left
              exact ⟨⟨fuel, W, rfl⟩, rfl, hg, h⟩
          · left
            simp [advance, hc, hb, hg, eachMinute_wifiState]
    | resume =>
      cases hc : m.control with
      | scheduler => simp [advance, hc]
      | delay f W' k =>
        rcases afterTimeReading_wifiState f W' (W'.time k) (k + 1)
          { m.state with log := m.state.log ++ [Event.time (W'.time k)] } with h | h
        · left
          simp only [advance, hc]
          simpa using h
        · right; right; right; right; right
          refine ⟨rfl, ⟨f, W', k, rfl⟩, ?_⟩
          simp only [advance, hc]
          simpa using h
  · intro e
    cases e <;> exact ⟨rfl, rfl⟩
  · intro hc fuel W k hd
    cases a with
    | event e =>
      simp [advance, hc] at hd
    | enterLoop fuel' W' =>
      by_cases hb : m.state.blocked = true
      · simp [advance, hc, hb] at hd
      · by_cases hg : m.state._wifiState = WIFI_GotIP
        · simp only [advance, hc] at hd
          rw [if_neg hb, if_pos hg] at hd
          have hn := afterTimeReading_control _ _ _ _ _ _ _ _ hd
          rw [afterTimeReading_wait _ _ _ _ _ hn] at hd
          cases hd
          exact ⟨rfl, hg⟩
        · simp [advance, hc, hb, hg] at hd
    | resume =>
      simp [advance, hc] at hd

/-- C2 (amended), at a concrete run.  After an address-acquired event, `loop()`
is called while the clock is not yet synchronised and waits in `delay(100)`; an
associated event arrives there and sets `WIFI_Connected`; when `delay(100)`
returns the clock is synchronised and `loop()` assigns `CLIENT_Ready`: the state
moves from `WIFI_Connected` to `CLIENT_Ready`.  The wait was entered by the call
of `loop()` in state `WIFI_GotIP`. -/
theorem C2_transitions_witness :
    (advanceAll Machine.initial [Advance.event LinkEvent.addressAcquired]).control
      = Control.scheduler
    ∧ (advanceAll Machine.initial
        [Advance.event LinkEvent.addressAcquired,
         Advance.enterLoop 5 World.lateSync]).control = Control.delay 5 World.lateSync 1
    ∧ (advanceAll Machine.initial
        [Advance.event LinkEvent.addressAcquired]).state._wifiState = WIFI_GotIP
    ∧ (advanceAll Machine.initial
        [Advance.event LinkEvent.addressAcquired, Advance.enterLoop 5 World.lateSync,
         Advance.event LinkEvent.associated]).state._wifiState = WIFI_Connected
    ∧ (advanceAll Machine.initial
        [Advance.event LinkEvent.addressAcquired, Advance.enterLoop 5 World.lateSync,
         Advance.event LinkEvent.associated, Advance.resume]).state._wifiState
      = CLIENT_Ready :=
  ⟨rfl, rfl,
   ((C2_transitions (advanceAll Machine.initial [Advance.event LinkEvent.addressAcquired])
      (Advance.enterLoop 5 World.lateSync)).2.2 rfl 5 World.lateSync 1 rfl).2,
   by decide, by decide⟩

/-- C3. From every state, `onSTADisconnected` sets `_wifiState` to
`WIFI_Disconnected` and appends exactly one `ESP.restart()` to the log; the other
two handlers append nothing, and what a `loop()` iteration appends contains no
restart, whether or not the iteration returns. -/
theorem C3_disassociation_restarts_once (s : State) :
    (onSTADisconnected s)._wifiState = WIFI_Disconnected
    ∧ (onSTADisconnected s).log = s.log ++ [Event.restart]
    ∧ (onSTAConnected s).log = s.log
    ∧ (onSTAGotIP s).log = s.log
    ∧ ∀ fuel W, ∃ ext, (loop fuel W s).log = s.log ++ ext ∧ Event.restart ∉ ext := by
  refine ⟨rfl, rfl, rfl, rfl, ?_⟩
  intro fuel W
  obtain ⟨ext, h1, h2⟩ := loop_log fuel W s
  refine ⟨ext, h1, ?_⟩
  intro hm
  rcases h2 _ hm with h | h <;> simp [Event.inInit, Event.inFetch] at h

/-! ## One-shot initialisation (C4) -/

/-- The bookkeeping of one `loop()` iteration for the one-shot initialisation. -/
theorem loop_init (fuel : Nat) (W : World) (s : State) :
    timeInits (loop fuel W s).log + pendingInit (loop fuel W s)
      ≤ timeInits s.log + pendingInit s
    ∧ (timeInits s.log ≤ certLoads s.log + (if s.blocked then 1 else 0) →
        timeInits (loop fuel W s).log
          ≤ certLoads (loop fuel W s).log + (if (loop fuel W s).blocked then 1 else 0))
    ∧ (certLoads s.log ≤ timeInits s.log →
        certLoads (loop fuel W s).log ≤ timeInits (loop fuel W s).log) := by
  have hI := InitialiseTime_log fuel W
  unfold loop onceIfGotIP eachMinute pendingInit
  by_cases hb : s.blocked = true
  · simp [hb]
  · by_cases hg : s._wifiState = WIFI_GotIP
    · by_cases hr : (InitialiseTime fuel W).returned = true
      · by_cases hm : s.lastloopminute = W.tm_min
        · simp [hb, hg, hr, hm, timeInits_append, certLoads_append, hI.1, hI.2.1,
            timeInits_LoadCertificates, certLoads_LoadCertificates]
        · simp [hb, hg, hr, hm, timeInits_append, certLoads_append, hI.1, hI.2.1,
            timeInits_LoadCertificates, certLoads_LoadCertificates, timeInits_fetchURL,
            certLoads_fetchURL]
          intro h
          split <;> omega
      · simp [hb, hg, hr, timeInits_append, certLoads_append, hI.1, hI.2.1]
        omega
    · by_cases hm : s.lastloopminute = W.tm_min
      · simp [hb, hg, hm]
      · by_cases hc : s._wifiState = CLIENT_Ready
        · simp [hb, hg, hm, hc, timeInits_append, certLoads_append, timeInits_fetchURL,
            certLoads_fetchURL]
          intro h
          split <;> omega
        · simp [hb, hg, hm, hc]

theorem step_init (s : State) (st : Step) :
    timeInits (step s st).log + pendingInit (step s st)
      ≤ timeInits s.log + pendingInit s + (if st.isAddressAcquired then 1 else 0)
    ∧ (timeInits s.log ≤ certLoads s.log + (if s.blocked then 1 else 0) →
        timeInits (step s st).log
          ≤ certLoads (step s st).log + (if (step s st).blocked then 1 else 0))
    ∧ (certLoads s.log ≤ timeInits s.log →
        certLoads (step s st).log ≤ timeInits (step s st).log) := by
  cases st with
  | event e =>
    cases e
    · simp [step, deliver, onSTAConnected, pendingInit, Step.isAddressAcquired]
    · simp [step, deliver, onSTADisconnected, pendingInit, Step.isAddressAcquired,
        timeInits_append, certLoads_append]
      simp [timeInits, certLoads]
    · simp [step, deliver, onSTAGotIP, pendingInit, Step.isAddressAcquired]
      split <;> split <;> omega
  | loop fuel W =>
    have h := loop_init fuel W s
    simp only [step, Step.isAddressAcquired]
    exact ⟨by simpa using h.1, h.2.1, h.2.2⟩

theorem run_init (steps : List Step) : ∀ s : State,
    timeInits (run s steps).log + pendingInit (run s steps)
      ≤ timeInits s.log + pendingInit s + addressEvents steps
    ∧ (timeInits s.log ≤ certLoads s.log + (if s.blocked then 1 else 0) →
        timeInits (run s steps).log
          ≤ certLoads (run s steps).log + (if (run s steps).blocked then 1 else 0))
    ∧ (certLoads s.log ≤ timeInits s.log →
        certLoads (run s steps).log ≤ timeInits (run s steps).log) := by
  induction steps with
  | nil => intro s; simp [run, addressEvents]
  | cons st rest ih =>
    intro s
    have h1 := step_init s st
    have h2 := ih (step s st)
    have hrun : run s (st :: rest) = run (step s st) rest := rfl
    have hcount : addressEvents (st :: rest)
        = (if st.isAddressAcquired then 1 else 0) + addressEvents rest := by
      unfold addressEvents
      rw [List.countP_cons]
      split <;> omega
    rw [hrun, hcount]
    refine ⟨by omega, fun h => h2.2.1 (h1.2.1 h), fun h => h2.2.2 (h1.2.2 h)⟩

/-- C4 (as stated, refuted). With no disassociation and no restart, two
address-acquired events, each followed by a `loop()` iteration, run
`InitialiseTime` and `LoadCertificates` twice. -/
theorem C4_counterexample :
    timeInits (run State.initial
        [Step.event LinkEvent.addressAcquired, Step.loop 5 (World.quiet 0),
         Step.event LinkEvent.addressAcquired, Step.loop 5 (World.quiet 0)]).log = 2
    ∧ certLoads (run State.initial
        [Step.event LinkEvent.addressAcquired, Step.loop 5 (World.quiet 0),
         Step.event LinkEvent.addressAcquired, Step.loop 5 (World.quiet 0)]).log = 2
    ∧ restarts (run State.initial
        [Step.event LinkEvent.addressAcquired, Step.loop 5 (World.quiet 0),
         Step.event LinkEvent.addressAcquired, Step.loop 5 (World.quiet 0)]).log = 0 := by
  decide

/-- C4 (amended). In every run from the initial state, `InitialiseTime` is
invoked at most once per delivered address-acquired event, `LoadCertificates` is
invoked at most as often as `InitialiseTime`, and exactly as often when control
is not stuck inside an iteration. -/
theorem C4_init_once_per_address_event (steps : List Step) :
    timeInits (run State.initial steps).log ≤ addressEvents steps
    ∧ certLoads (run State.initial steps).log ≤ timeInits (run State.initial steps).log
    ∧ ((run State.initial steps).blocked = false →
        certLoads (run State.initial steps).log = timeInits (run State.initial steps).log) := by
  have h := run_init steps State.initial
  have h0 : timeInits State.initial.log = 0 := rfl
  have h1 : certLoads State.initial.log = 0 := rfl
  have h2 : pendingInit State.initial = 0 := rfl
  rw [h0, h1, h2] at h
  have ha := h.2.1 (by simp)
  have hb := h.2.2 (by simp)
  refine ⟨by omega, hb, ?_⟩
  intro hnb
  rw [hnb] at ha
  simp at ha
  omega

/-- C4 (amended), at a concrete run: one address-acquired event and one
iteration that returns run each routine once. -/
theorem C4_init_once_per_address_event_witness :
    (run State.initial
        [Step.event LinkEvent.addressAcquired, Step.loop 5 (World.quiet 0)]).blocked = false
    ∧ certLoads (run State.initial
        [Step.event LinkEvent.addressAcquired, Step.loop 5 (World.quiet 0)]).log
      = timeInits (run State.initial
        [Step.event LinkEvent.addressAcquired, Step.loop 5 (World.quiet 0)]).log
    ∧ timeInits (run State.initial
        [Step.event LinkEvent.addressAcquired, Step.loop 5 (World.quiet 0)]).log = 1 :=
  ⟨by decide,
   (C4_init_once_per_address_event
      [Step.event LinkEvent.addressAcquired, Step.loop 5 (World.quiet 0)]).2.2 (by decide),
   by decide⟩

/-! ## Minute-boundary detection (C5, C6) -/

theorem minuteChanges_le (ms : List Int) : ∀ last, minuteChanges last ms ≤ ms.length := by
  induction ms with
  | nil => intro last; simp [minuteChanges]
  | cons m rest ih =>
    intro last
    have := ih m
    simp only [minuteChanges, List.length_cons]
    split <;> omega

theorem minuteChanges_const (m : Int) (ms : List Int) (h : ∀ x ∈ ms, x = m) :
    ∀ last, minuteChanges last ms ≤ 1 ∧ minuteChanges m ms = 0 := by
  induction ms with
  | nil => intro last; simp [minuteChanges]
  | cons x rest ih =>
    intro last
    have hx : x = m := h x (List.mem_cons_self _ _)
    have hr := ih (fun y hy => h y (List.mem_cons_of_mem _ hy)) m
    subst hx
    simp only [minuteChanges]
    refine ⟨?_, ?_⟩
    · split <;> omega
    · simp [hr.2]

theorem runLoops_ready (its : List (Nat × World)) : ∀ s : State,
    s._wifiState = CLIENT_Ready →
    (runLoops s its)._wifiState = CLIENT_Ready
    ∧ fetches (runLoops s its).log
        ≤ fetches s.log + minuteChanges s.lastloopminute (minutes its)
    ∧ ((runLoops s its).blocked = false →
        fetches (runLoops s its).log
          = fetches s.log + minuteChanges s.lastloopminute (minutes its)) := by
  induction its with
  | nil => intro s hs; simp [runLoops, minutes, minuteChanges, hs]
  | cons it rest ih =>
    intro s hs
    obtain ⟨h1, h2, h3, h4⟩ := loop_ready it.1 it.2 s hs
    have hmin : minutes (it :: rest) = it.2.tm_min :: minutes rest := rfl
    rw [runLoops_cons, hmin]
    simp only [minuteChanges]
    by_cases hb : (loop it.1 it.2 s).blocked = true
    · rw [runLoops_of_blocked rest _ hb]
      refine ⟨h1, by omega, ?_⟩
      intro h
      rw [h] at hb
      exact absurd hb (by simp)
    · have hb2 : (loop it.1 it.2 s).blocked = false := by simpa using hb
      obtain ⟨_, h5, h6⟩ := h4 hb2
      obtain ⟨i1, i2, i3⟩ := ih (loop it.1 it.2 s) h1
      rw [h5] at i2 i3
      refine ⟨i1, by omega, ?_⟩
      intro h
      have := i3 h
      omega

set_option maxRecDepth 100000 in
/-- C5 (as stated, refuted). From the `CLIENT_Ready` state reached at minute 59,
sixty-one iterations observing the minutes 0, 1, ..., 59, 0 invoke `fetchURL`
sixty-one times, while only sixty distinct minute values are observed. -/
theorem C5_counterexample :
    (readyAtMinute 59)._wifiState
      = CLIENT_Ready
    ∧ fetches (runLoops (readyAtMinute 59)
        hourOfIterations).log
      = fetches (readyAtMinute 59).log + 61
    ∧ (minutes hourOfIterations).dedup.length = 60 := by
  decide

/-- C5 (amended). In state `CLIENT_Ready`, for every sequence of `loop()`
iterations: an iteration invokes `fetchURL` at most once; an iteration whose
observed minute equals the minute observed by the iteration right before it
invokes no fetch; the total number of fetches is at most the number of
iterations whose minute differs from the minute seen last, with equality when
every iteration returned; and iterations that all observe one minute fetch at
most once in total. -/
theorem C5_fetch_on_minute_change (s : State) (hs : s._wifiState = CLIENT_Ready) :
    (∀ (pre : List (Nat × World)) (it : Nat × World),
        fetches (runLoops s (pre ++ [it])).log ≤ fetches (runLoops s pre).log + 1)
    ∧ (∀ (pre : List (Nat × World)) (it0 it : Nat × World),
        it0.2.tm_min = it.2.tm_min →
        fetches (runLoops s (pre ++ [it0, it])).log
          = fetches (runLoops s (pre ++ [it0])).log)
    ∧ (∀ its : List (Nat × World),
        fetches (runLoops s its).log
          ≤ fetches s.log + minuteChanges s.lastloopminute (minutes its)
        ∧ ((runLoops s its).blocked = false →
            fetches (runLoops s its).log
              = fetches s.log + minuteChanges s.lastloopminute (minutes its)))
    ∧ (∀ (its : List (Nat × World)) (m : Int),
        (∀ x ∈ minutes its, x = m) → fetches (runLoops s its).log ≤ fetches s.log + 1) := by
  refine ⟨?_, ?_, ?_, ?_⟩
  · intro pre it
    obtain ⟨h1, _, _⟩ := runLoops_ready pre s hs
    obtain ⟨_, _, h3, _⟩ := loop_ready it.1 it.2 (runLoops s pre) h1
    rw [runLoops_append]
    show fetches (loop it.1 it.2 (runLoops s pre)).log ≤ _
    split at h3 <;> omega
  · intro pre it0 it hmin
    obtain ⟨h1, _, _⟩ := runLoops_ready (pre ++ [it0]) s hs
    have e : pre ++ [it0, it] = (pre ++ [it0]) ++ [it] := by simp
    rw [e, runLoops_append]
    show fetches (loop it.1 it.2 (runLoops s (pre ++ [it0]))).log = _
    by_cases hb : (runLoops s (pre ++ [it0])).blocked = true
    · rw [loop_of_blocked _ _ _ hb]
    · have hb2 : (runLoops s (pre ++ [it0])).blocked = false := by simpa using hb
      have hl : (runLoops s (pre ++ [it0])).lastloopminute = it.2.tm_min := by
        rw [runLoops_append] at hb2 ⊢
        rw [← hmin]
        exact loop_lastloopminute it0.1 it0.2 (runLoops s pre) hb2
      obtain ⟨_, h2, h3, _⟩ := loop_ready it.1 it.2 (runLoops s (pre ++ [it0])) h1
      rw [hl] at h3
      simp at h3
      omega
  · intro its
    exact (runLoops_ready its s hs).2
  · intro its m hm
    have h := (runLoops_ready its s hs).2.1
    have := (minuteChanges_const m (minutes its) hm s.lastloopminute).1
    omega

/-- C5 (amended), at a concrete run: from the `CLIENT_Ready` state reached at
minute 59, a further iteration at minute 0 fetches once. -/
theorem C5_fetch_on_minute_change_witness :
    (readyAtMinute 59)._wifiState
      = CLIENT_Ready
    ∧ fetches (runLoops (readyAtMinute 59)
          ([] ++ [(5, World.quiet 0)])).log
        ≤ fetches (runLoops (readyAtMinute 59) []).log + 1 :=
  ⟨by decide,
   (C5_fetch_on_minute_change (readyAtMinute 59) (by decide)).1
      [] (5, World.quiet 0)⟩

/-- C6 (as stated, refuted). The state reached at minute 59 is `CLIENT_Ready`
with last-seen minute 59 and one fetch in its log.  After 0, 1, 2, 3, 4, 5 of
the iterations observing the minutes 0, 0, 1, 1, 2 the log holds 1, 2, 2, 3, 3, 4
fetches: `fetchURL` is invoked on the first, third and fifth iteration, three
times, not two. -/
theorem C6_counterexample :
    (readyAtMinute 59)
      = { _wifiState := CLIENT_Ready, lastloopminute := 59,
          log := (readyAtMinute 59).log,
          blocked := false }
    ∧ [0, 1, 2, 3, 4, 5].map (fun n => fetches (runLoops (readyAtMinute 59)
          ([(5, World.quiet 0), (5, World.quiet 0), (5, World.quiet 1), (5, World.quiet 1),
            (5, World.quiet 2)].take n)).log)
      = [1, 2, 2, 3, 3, 4] := by
  decide

/-- C6 (amended). In state `CLIENT_Ready`, five consecutive `loop()` iterations
that observe the minutes 0, 0, 1, 1, 2 and all return invoke `fetchURL` on the
third and on the fifth iteration, not on the second or fourth, and on the first
iteration exactly when the minute seen last before it is not 0: twice in total
when it is 0, three times otherwise. -/
theorem C6_minute_sequence (s s1 s2 s3 s4 s5 : State) (f1 f2 f3 f4 f5 : Nat)
    (W1 W2 W3 W4 W5 : World) (hs : s._wifiState = CLIENT_Ready)
    (m1 : W1.tm_min = 0) (m2 : W2.tm_min = 0) (m3 : W3.tm_min = 1) (m4 : W4.tm_min = 1)
    (m5 : W5.tm_min = 2)
    (e1 : s1 = loop f1 W1 s) (e2 : s2 = loop f2 W2 s1) (e3 : s3 = loop f3 W3 s2)
    (e4 : s4 = loop f4 W4 s3) (e5 : s5 = loop f5 W5 s4) (hret : s5.blocked = false) :
    fetches s1.log = fetches s.log + (if s.lastloopminute = 0 then 0 else 1)
    ∧ fetches s2.log = fetches s1.log
    ∧ fetches s3.log = fetches s2.log + 1
    ∧ fetches s4.log = fetches s3.log
    ∧ fetches s5.log = fetches s4.log + 1
    ∧ fetches s5.log = fetches s.log + 2 + (if s.lastloopminute = 0 then 0 else 1) := by
  obtain ⟨r1, _, _, k1⟩ := loop_ready f1 W1 s hs
  rw [← e1] at r1 k1
  obtain ⟨r2, _, _, k2⟩ := loop_ready f2 W2 s1 r1
  rw [← e2] at r2 k2
  obtain ⟨r3, _, _, k3⟩ := loop_ready f3 W3 s2 r2
  rw [← e3] at r3 k3
  obtain ⟨r4, _, _, k4⟩ := loop_ready f4 W4 s3 r3
  rw [← e4] at r4 k4
  obtain ⟨r5, _, _, k5⟩ := loop_ready f5 W5 s4 r4
  rw [← e5] at r5 k5
  obtain ⟨b4, l5, c5⟩ := k5 hret
  obtain ⟨b3, l4, c4⟩ := k4 b4
  obtain ⟨b2, l3, c3⟩ := k3 b3
  obtain ⟨b1, l2, c2⟩ := k2 b2
  obtain ⟨_, l1, c1⟩ := k1 b1
  simp only [l4, m4, m5] at c5
  simp only [l3, m3, m4] at c4
  simp only [l2, m2, m3] at c3
  simp only [l1, m1, m2] at c2
  simp only [m1] at c1
  simp at c1 c2 c3 c4 c5
  refine ⟨c1, c2, c3, c4, c5, ?_⟩
  omega

/-- C6 (amended), at a concrete run: from the `CLIENT_Ready` state reached at
minute 0, the five iterations all return and fetch twice in total. -/
theorem C6_minute_sequence_witness :
    (readyAtMinute 0)._wifiState = CLIENT_Ready
    ∧ (runLoops (readyAtMinute 0)
        [(5, World.quiet 0), (5, World.quiet 0), (5, World.quiet 1), (5, World.quiet 1),
          (5, World.quiet 2)]).blocked = false
    ∧ fetches (runLoops (readyAtMinute 0)
        [(5, World.quiet 0), (5, World.quiet 0), (5, World.quiet 1), (5, World.quiet 1),
          (5, World.quiet 2)]).log
        = fetches (readyAtMinute 0).log + 2
          + (if (readyAtMinute 0).lastloopminute = 0 then 0 else 1) :=
  ⟨by decide, by decide,
   (C6_minute_sequence (readyAtMinute 0) _ _ _ _ _ 5 5 5 5 5
      (World.quiet 0) (World.quiet 0) (World.quiet 1) (World.quiet 1) (World.quiet 2)
      (by decide) rfl rfl rfl rfl rfl rfl rfl rfl rfl rfl (by decide)).2.2.2.2.2⟩

/-! ## Secure fetch (C7, C8, C9, C10) -/

theorem written_append (a b : List Event) : written (a ++ b) = written a ++ written b := by
  induction a with
  | nil => rfl
  | cons e rest ih => cases e <;> simp [written, ih]

theorem written_of_inResponse {l : List Event} (h : ∀ e ∈ l, e.inResponse = true) :
    written l = [] := by
  induction l with
  | nil => rfl
  | cons e rest ih =>
    have he := h e (List.mem_cons_self _ _)
    have hr := ih (fun x hx => h x (List.mem_cons_of_mem _ hx))
    cases e <;> simp_all [written, Event.inResponse]

/-- C8. If the transport does not report connected right after the connect
attempt, `fetchURL` returns, for every fuel, and its whole log is: the entry, the
`URL:` line, one `connect(host, port)`, the `connected()` check and the failure
message; it contains no `write` and no `readStringUntil`. -/
theorem C8_connect_failure (fuel : Nat) (W : World) (host : String) (port : Nat)
    (path : String) (h : W.connected 0 = false) :
    fetchURL fuel W host port path
      = { log := [Event.fetchURL host port path,
                  Event.serial ("URL: " ++ host ++ ":" ++ toString port ++ path ++ " ... "),
                  Event.connect host port,
                  Event.connected false,
                  Event.serial "*** Can't connect. ***\n-------\n"],
          returned := true }
    ∧ written (fetchURL fuel W host port path).log = []
    ∧ linesRead (fetchURL fuel W host port path).log = [] := by
  unfold fetchURL
  simp [h, written, linesRead]

/-- C8, at a concrete run: the peer refuses the connection to the configured
host. -/
theorem C8_connect_failure_witness :
    World.refused.connected 0 = false
    ∧ (fetchURL 5 World.refused URL_HOST URL_PORT URL_PATH).log
      = [Event.fetchURL "www.info.com" 443 "/api/status",
         Event.serial "URL: www.info.com:443/api/status ... ",
         Event.connect "www.info.com" 443,
         Event.connected false,
         Event.serial "*** Can't connect. ***\n-------\n"] :=
  ⟨rfl, congrArg Run.log (C8_connect_failure 5 World.refused URL_HOST URL_PORT URL_PATH rfl).1⟩

/-- C9. If the transport reports connected, then for every fuel the writes of
`fetchURL`, concatenated in order, are exactly the request
`GET <path> HTTP/1.0`, `Host: <host>`, `User-Agent: ESP8266`,
`Authorization: Basic <URL_BASICAUTH>`, `Connection: close` and the blank line;
and the log splits into a first part without any read and a second part without
any write, so every write precedes the first read and nothing follows the blank
line. -/
theorem C9_request_bytes (fuel : Nat) (W : World) (host : String) (port : Nat)
    (path : String) (h : W.connected 0 = true) :
    String.join (written (fetchURL fuel W host port path).log)
      = "GET " ++ path ++ " HTTP/1.0\r\nHost: " ++ host
        ++ "\r\nUser-Agent: ESP8266\r\nAuthorization: Basic " ++ URL_BASICAUTH
        ++ "\r\nConnection: close\r\n\r\n"
    ∧ ∃ pre rest, (fetchURL fuel W host port path).log = pre ++ rest
      ∧ linesRead pre = []
      ∧ written rest = [] := by
  have hw := written_of_inResponse (retrieveResponse_inResponse fuel W)
  have hlog : (fetchURL fuel W host port path).log
      = ([Event.fetchURL host port path,
          Event.serial ("URL: " ++ host ++ ":" ++ toString port ++ path ++ " ... "),
          Event.connect host port, Event.connected true,
          Event.serial "connected!\n-------\n"] ++ writeRequest host path)
        ++ (retrieveResponse fuel W).log := by
    unfold fetchURL
    simp [h]
  refine ⟨?_, _, _, hlog, ?_, hw⟩
  · rw [hlog, written_append, hw, List.append_nil]
    apply String.ext
    simp [written, writeRequest, String.join, String.data_append]
  · simp [linesRead, writeRequest]

/-- C9, at a concrete run: the request written to the configured target. -/
theorem C9_request_bytes_witness :
    (World.quiet 0).connected 0 = true
    ∧ String.join (written (fetchURL 5 (World.quiet 0) "www.info.com" 443 "/api/status").log)
      = "GET /api/status HTTP/1.0\r\nHost: www.info.com\r\nUser-Agent: ESP8266\r\n"
        ++ "Authorization: Basic userid:password\r\nConnection: close\r\n\r\n" :=
  ⟨rfl,
   (C9_request_bytes 5 (World.quiet 0) "www.info.com" 443 "/api/status" rfl).1.trans
     (by decide)⟩

/-- The header loop, when no line is the blank line: it reads one line per clock
reading, and ends with the first reading that is not below the 32-bit deadline. -/
theorem readHeader_until_deadline (W : World) (d : Nat)
    (hl : ∀ k, W.readStringUntil k ≠ "\r") :
    ∀ (n r c fuel : Nat), (∀ k, k < n → W.millis32 (c + k) < d) →
      ¬ W.millis32 (c + n) < d → n < fuel →
      (readHeader W d fuel r c).finished = true
      ∧ (readHeader W d fuel r c).reads = r + n + 1
      ∧ (readHeader W d fuel r c).clocks = c + n + 1 := by
  intro n
  induction n with
  | zero =>
    intro r c fuel _ hstop hfuel
    obtain ⟨f, rfl⟩ : ∃ f, fuel = f + 1 := ⟨fuel - 1, by omega⟩
    have hstop' : ¬ W.millis32 c < d := by simpa using hstop
    simp [readHeader, hl r, hstop']
  | succ n ih =>
    intro r c fuel hbefore hstop hfuel
    obtain ⟨f, rfl⟩ : ∃ f, fuel = f + 1 := ⟨fuel - 1, by omega⟩
    have h0 : W.millis32 c < d := by simpa using hbefore 0 (by omega)
    have hrec := ih (r + 1) (c + 1) f
      (fun k hk => by
        have := hbefore (k + 1) (by omega)
        rwa [show c + (k + 1) = c + 1 + k by omega] at this)
      (by rwa [show c + (n + 1) = c + 1 + n by omega] at hstop)
      (by omega)
    simp only [readHeader, hl r, if_false, h0, if_true]
    refine ⟨hrec.1, ?_, ?_⟩
    · rw [hrec.2.1]; omega
    · rw [hrec.2.2]; omega

/-- C10 (the code at the failing input). The millisecond counter reads
`2 ^ 32 - 1000` when the deadline is computed, so `to` wraps to 4000.  After the
first header line the counter reads one millisecond more, which is not below
4000: the header loop ends after a single read, 4999 ms before the deadline,
although no blank line was received.  The whole fetch reads two lines (one in
each loop) and returns two milliseconds after it computed the deadline. -/
theorem C10_deadline_wraps :
    World.nearWrap.millis32 0 = 4294966296
    ∧ (World.nearWrap.millis32 0 + 5000) % UINT32 = 4000
    ∧ readHeader World.nearWrap 4000 10 0 1
      = { log := [Event.readStringUntil "Server: x\r", Event.serial "Server: x\r\r\n",
                  Event.millis 4294966297],
          reads := 1, clocks := 2, finished := true }
    ∧ 4294966297 < 4294966296 + 5000
    ∧ (fetchURL 10 World.nearWrap URL_HOST URL_PORT URL_PATH).returned = true
    ∧ (fetchURL 10 World.nearWrap URL_HOST URL_PORT URL_PATH).log.drop 17
      = [Event.millis 4294966296, Event.connected true,
         Event.readStringUntil "Server: x\r", Event.serial "Server: x\r\r\n",
         Event.millis 4294966297,
         Event.readStringUntil "Server: x\r", Event.serial "Server: x\r\r\n",
         Event.millis 4294966298,
         Event.stop, Event.serial "\n-------\n\n"] := by
  decide

/-- The converse failure of the deadline: the counter reads `2 ^ 32 - 5001` when
the deadline is computed, so `to` is `2 ^ 32 - 1`; the fifth reading, 5005 ms
later, has wrapped to 4 and is below `to` again, and the header loop is still
reading after ten lines, 10010 ms after the start. -/
theorem header_loop_overruns_deadline :
    World.acrossWrap.millis32 0 = 4294962295
    ∧ (World.acrossWrap.millis32 0 + 5000) % UINT32 = 4294967295
    ∧ World.acrossWrap.millis 5 = 4294962295 + 5005
    ∧ World.acrossWrap.millis32 5 = 4
    ∧ (readHeader World.acrossWrap 4294967295 10 0 1).finished = false
    ∧ linesRead (readHeader World.acrossWrap 4294967295 10 0 1).log
      = List.replicate 10 "Server: x\r" := by
  decide

end WifiEsp8266
